import Mathlib

/-!
Shallow embedding of the `hgrow` lazy attribute resolver
(`src/hgrow/entity.py`, with the persistence adapter of
`src/hgrow/storage.py` modelled as an abstract keyed store).

Python dictionaries are modelled as insertion-ordered association lists
(`Dict`), Python sets (`_requested`, `_cacheable`) as duplicate-free
lists, and attribute values as the variant type `Val`.  Producers
(the functions in the rule table) are a deep-embedded language
`RuleProg`: a producer either returns its `(cacheable, noncacheable)`
pair of mappings, requests another attribute of the same entity via
`get` and continues with the received value, or fails (an external,
producer-level error such as an unreachable data source).  `getE` and
`runRule` form a fuel-indexed interpreter mirroring `Entity.get` line
by line; the fuel only bounds recursion depth and every theorem either
supplies enough fuel explicitly or holds for all fuel.

The Lean `Entity` carries one instrumentation field absent from the
Python class: `calls`, a counter incremented exactly when a producer is
invoked, mirroring the call-counter producers the specification uses to
state its memoization property.  `calls` never influences control flow.
-/

set_option autoImplicit false

namespace HG

/-- Attribute values: Python scalars, strings, `None`, lists / numpy
arrays (modelled as Lean lists) and nested string-keyed dicts. -/
inductive Val where
  | vnone : Val
  | int : Int → Val
  | str : String → Val
  | arr : List Val → Val
  | dict : List (String × Val) → Val

/-- A Python dict with string keys: insertion-ordered association list. -/
abbrev Dict := List (String × Val)

/-- `d[k]` / `d.get(k)`: the first binding for `k`. -/
def Dict.lookup : Dict → String → Option Val
  | [], _ => none
  | (k', v) :: rest, k => if k' = k then some v else Dict.lookup rest k

/-- `d[k] = v`: replace the first binding in place, else append. -/
def Dict.insert : Dict → String → Val → Dict
  | [], k, v => [(k, v)]
  | (k', v') :: rest, k, v =>
    if k' = k then (k, v) :: rest else (k', v') :: Dict.insert rest k v

/-- `d.keys()` in iteration order. -/
def Dict.keys (d : Dict) : List String := d.map (fun kv => kv.1)

/-- `citedby.get(year_str, 0)` followed by the integer coercion numpy
applies; non-integer values (which would make numpy fail) map to 0. -/
def Dict.getIntD (d : Dict) (k : String) : Int :=
  match Dict.lookup d k with
  | some (Val.int n) => n
  | _ => 0

/-- Python `set.add` on a duplicate-free list. -/
def addSet (l : List String) (k : String) : List String :=
  if k ∈ l then l else k :: l

/-- The state of `hgrow.entity.Entity`: `_idx`, `_data`, `_requested`,
`_cacheable`, `_updated`, plus the `calls` producer-invocation counter
(instrumentation only, see the module docstring). -/
structure Entity where
  idx : String
  data : Dict
  requested : List String
  cacheable : List String
  updated : Bool
  calls : Nat

/-- `Entity.__init__`.  `none` models the constructor raising: with
`data is None` and `cacheable is None`, line 16 evaluates
`set(data.keys())` on `None`, an `AttributeError`. -/
def Entity.init (idx : String) (data : Option Dict)
    (cacheable : Option (List String)) : Option Entity :=
  let d : Dict := match data with
    | none => [("fetched_at", Val.vnone)]
    | some d0 => d0
  match cacheable with
  | some c => some ⟨idx, d, [], c, false, 0⟩
  | none =>
    match data with
    | none => none
    | some d0 => some ⟨idx, d, [], Dict.keys d0, false, 0⟩

/-- `Entity.set`. -/
def Entity.set (e : Entity) (key : String) (v : Val) (c : Bool) : Entity :=
  let e1 : Entity := { e with data := Dict.insert e.data key v }
  if c then { e1 with cacheable := addSet e1.cacheable key, updated := true }
  else e1

/-- `Entity.append`: fold `Entity.set` over the pairs in order. -/
def Entity.appendD (e : Entity) (pairs : Dict) (c : Bool) : Entity :=
  pairs.foldl (fun acc kv => Entity.set acc kv.1 kv.2 c) e

/-- `Entity.save`: when `_updated`, hand the adapter the cacheable
restriction of `_data` (in `_data` iteration order) and clear the flag;
otherwise do nothing.  The first component is the write, if any. -/
def Entity.save (e : Entity) : Option Dict × Entity :=
  if e.updated then
    (some (e.data.filter (fun kv => decide (kv.1 ∈ e.cacheable))),
     { e with updated := false })
  else (none, e)

/-- A producer from the rule table, deep-embedded: return the
`(cacheable, noncacheable)` pair, request another attribute and
continue, or fail with a producer-level (external) error. -/
inductive RuleProg where
  | ret : Dict → Dict → RuleProg
  | getThen : String → (Val → RuleProg) → RuleProg
  | fail : RuleProg

/-- A rule table (`self._rules`). -/
abbrev Rules := String → Option RuleProg

/-- The exceptions `Entity.get` can propagate: the circular-dependence
`KeyError` (carrying the key and the `_requested` stack it reports),
the no-rule `KeyError`, a producer-level failure, the `KeyError` from
the final `self._data[key]` when the rule did not supply `key`, and
fuel exhaustion of the interpreter (never reached with enough fuel). -/
inductive Err where
  | circular : String → List String → Err
  | noRule : String → Err
  | producerFail : Err
  | missing : String → Err
  | fuelOut : Err

/-- Lines 41–43 of `Entity.get` after the producer returned:
`self._requested.remove(key)`, then `append(cacheable, True)` and
`append(noncacheable, False)`. -/
def mergeResults (e2 : Entity) (key : String) (c nc : Dict) : Entity :=
  Entity.appendD
    (Entity.appendD { e2 with requested := e2.requested.erase key } c true)
    nc false

mutual

/-- `Entity.get`, returning the result together with the post state
(Python mutates `self`; an exception still leaves the mutations). -/
def getE : Nat → Rules → String → Entity → Except Err Val × Entity
  | 0, _, _, e => (Except.error Err.fuelOut, e)
  | fuel + 1, rules, key, e =>
    if key ∈ e.requested then
      (Except.error (Err.circular key e.requested), e)
    else
      match Dict.lookup e.data key with
      | some v => (Except.ok v, e)
      | none =>
        match rules key with
        | none => (Except.error (Err.noRule key), e)
        | some p =>
          match runRule fuel rules p
              { e with requested := addSet e.requested key,
                       calls := e.calls + 1 } with
          | (Except.error err, e2) => (Except.error err, e2)
          | (Except.ok (c, nc), e2) =>
            match Dict.lookup (mergeResults e2 key c nc).data key with
            | some v => (Except.ok v, mergeResults e2 key c nc)
            | none => (Except.error (Err.missing key), mergeResults e2 key c nc)

/-- Run a producer body against the entity; `getThen` re-enters
`Entity.get` on the same entity (same `_requested` set). -/
def runRule : Nat → Rules → RuleProg → Entity → Except Err (Dict × Dict) × Entity
  | 0, _, _, e => (Except.error Err.fuelOut, e)
  | _ + 1, _, RuleProg.ret c nc, e => (Except.ok (c, nc), e)
  | _ + 1, _, RuleProg.fail, e => (Except.error Err.producerFail, e)
  | fuel + 1, rules, RuleProg.getThen k f, e =>
    match getE fuel rules k e with
    | (Except.error err, e') => (Except.error err, e')
    | (Except.ok v, e') => runRule fuel rules (f v) e'

end

/-! ### The persistence adapter as an abstract keyed store
(`load_cache` / `save_cache` of `src/hgrow/storage.py`; the JSON file
on disk is the external collaborator, modelled as a key → mapping
store). -/

/-- The durable store: one optional mapping per entity key. -/
abbrev Store := String → Option Dict

/-- `Entity.save` against a store: a write replaces the entry for
`_idx`. -/
def saveStore (st : Store) (e : Entity) : Store × Entity :=
  match Entity.save e with
  | (none, e') => (st, e')
  | (some d, e') => (fun j => if j = e.idx then some d else st j, e')

/-- `Entity.load`: `load_cache(idx)` yields the stored mapping or
`None`, handed to the constructor. -/
def loadE (st : Store) (idx : String) : Option Entity :=
  Entity.init idx (st idx) none

/-! ### The `Author` rule table (`src/hgrow/entity.py`, `Author`) -/

/-- Python `int(y)` on the year keys, as a decimal-digit fold; the
repository only produces decimal-digit keys (anything else would make
Python raise). -/
def pyInt (s : String) : Int :=
  s.data.foldl (fun n c => n * 10 + ((c.toNat : Int) - 48)) 0

/-- Insertion sort step for the `sorted(...)` call. -/
def insertSorted (x : Int) : List Int → List Int
  | [] => [x]
  | y :: ys => if x ≤ y then x :: y :: ys else y :: insertSorted x ys

/-- `sorted(...)` over integers, ascending. -/
def sortInts (l : List Int) : List Int := l.foldr insertSorted []

/-- Set formation `set(...) | set(...)` over the parsed year keys:
keep first occurrences. -/
def dedupInts (l : List Int) : List Int :=
  l.foldl (fun acc x => if x ∈ acc then acc else acc ++ [x]) []

/-- The body of `Author._rule_years` once both inputs are in hand:
the aligned, sorted, `min_year`-filtered series.  `minYear = 1960` is
the default the rule table always uses. -/
def yearsOut (citedby pubs : Dict) : Dict :=
  let years : List Int :=
    sortInts ((dedupInts ((Dict.keys citedby ++ Dict.keys pubs).map pyInt)).filter
      (fun y => decide (y > 1960)))
  let yearsStr : List String := years.map (fun y => toString y)
  let citations : List Int := yearsStr.map (fun s => Dict.getIntD citedby s)
  let publications : List Int := yearsStr.map (fun s => Dict.getIntD pubs s)
  [("years", Val.arr (years.map Val.int)),
   ("years_str", Val.arr (yearsStr.map Val.str)),
   ("citations", Val.arr (citations.map Val.int)),
   ("publications", Val.arr (publications.map Val.int))]

/-- `Author._rule_years`: `get('citedby_year')`, `get('pubs_per_year')`,
then return `({}, {...})` — all outputs non-cacheable.  Non-mapping
inputs (impossible in the repository) would make Python raise; that is
the failure branch. -/
def ruleYears : RuleProg :=
  RuleProg.getThen "citedby_year" (fun cv =>
    RuleProg.getThen "pubs_per_year" (fun pv =>
      match cv, pv with
      | Val.dict c, Val.dict p => RuleProg.ret [] (yearsOut c p)
      | _, _ => RuleProg.fail))

/-- `Author.get_rules`: six attribute names alias the external fetch
producer `_rule_author` (passed in as `fetch` — it talks to Google
Scholar, an external collaborator), four alias `_rule_years`. -/
def authorRules (fetch : RuleProg) : Rules := fun k =>
  if k = "name" ∨ k = "affiliation" ∨ k = "citedby_year" ∨
     k = "pubs_per_year" ∨ k = "hindex" ∨ k = "hindex5y" then some fetch
  else if k = "years" ∨ k = "years_str" ∨ k = "citations" ∨
          k = "publications" then some ruleYears
  else none

/-! ### Concrete scenarios used by the testable properties -/

/-- An entity with no attributes (as if constructed with `data={}`). -/
def eNil : Entity := ⟨"E", [], [], [], false, 0⟩

/-- An empty rule table. -/
def noRules : Rules := fun _ => none

/-- An entity holding a memoized attribute `a = 7`. -/
def eMemo : Entity := ⟨"E", [("a", Val.int 7)], [], ["a"], false, 0⟩

/-- One producer for `x` that fails (external source unreachable). -/
def failRules : Rules := fun k => if k = "x" then some RuleProg.fail else none

/-- The state `getE` leaves behind when the producer for `x` raised:
`x` is still on the `_requested` stack. -/
def eFailAfter : Entity := ⟨"E", [], ["x"], [], false, 1⟩

/-- `x`'s producer calls `get("y")`, `y`'s producer calls `get("x")`. -/
def xyRules : Rules := fun k =>
  if k = "x" then
    some (RuleProg.getThen "y" (fun _ => RuleProg.ret [] [("x", Val.int 0)]))
  else if k = "y" then
    some (RuleProg.getThen "x" (fun _ => RuleProg.ret [] [("y", Val.int 0)]))
  else none

/-- A producer for `a` returning `({"a": 1, "b": 2}, {"c": 3})`. -/
def rulesAB : Rules := fun k =>
  if k = "a" then
    some (RuleProg.ret [("a", Val.int 1), ("b", Val.int 2)] [("c", Val.int 3)])
  else none

/-- The entity state after resolving `a` under `rulesAB` from `eNil`. -/
def eAB : Entity :=
  ⟨"E", [("a", Val.int 1), ("b", Val.int 2), ("c", Val.int 3)],
   [], ["b", "a"], true, 1⟩

/-- An entity whose cacheable attribute `a` was just saved. -/
def eC7 : Entity := ⟨"E", [("a", Val.int 1)], [], ["a"], false, 0⟩

/-- A store persisting `{"a": 1}` under key `A`. -/
def stA : Store := fun j => if j = "A" then some [("a", Val.int 1)] else none

/-- Persisted `citedby_year` of the derived-series example. -/
def cdDict : Dict := [("2020", Val.int 3), ("2021", Val.int 5)]

/-- Persisted `pubs_per_year` of the derived-series example. -/
def ppDict : Dict := [("2020", Val.int 1), ("2021", Val.int 2)]

/-- The persisted cacheable map of the derived-series example. -/
def authorData : Dict :=
  [("citedby_year", Val.dict cdDict), ("pubs_per_year", Val.dict ppDict)]

/-- The `Author` entity as loaded from a cache holding only the two
base mappings. -/
def eAuthor : Entity :=
  ⟨"AUTH", authorData, [], ["citedby_year", "pubs_per_year"], false, 0⟩

/-- `eAuthor` after resolving `years`: the four derived series are in
`_data` but not in `_cacheable`, `_updated` is still false, and the
producer ran once. -/
def eAuthorAfter : Entity :=
  ⟨"AUTH",
   authorData ++
     [("years", Val.arr [Val.int 2020, Val.int 2021]),
      ("years_str", Val.arr [Val.str "2020", Val.str "2021"]),
      ("citations", Val.arr [Val.int 3, Val.int 5]),
      ("publications", Val.arr [Val.int 1, Val.int 2])],
   [], ["citedby_year", "pubs_per_year"], false, 1⟩

/-! ### Basic lemmas about the entity operations -/

theorem set_requested (e : Entity) (k : String) (v : Val) (c : Bool) :
    (Entity.set e k v c).requested = e.requested := by
  unfold Entity.set
  by_cases hc : c = true <;> simp [hc]

theorem set_idx (e : Entity) (k : String) (v : Val) (c : Bool) :
    (Entity.set e k v c).idx = e.idx := by
  unfold Entity.set
  by_cases hc : c = true <;> simp [hc]

theorem appendD_requested (prs : Dict) (e : Entity) (c : Bool) :
    (Entity.appendD e prs c).requested = e.requested := by
  induction prs generalizing e with
  | nil => rfl
  | cons kv rest ih =>
    show (Entity.appendD (Entity.set e kv.1 kv.2 c) rest c).requested = e.requested
    rw [ih, set_requested]

theorem mem_addSet (l : List String) (k : String) : k ∈ addSet l k := by
  unfold addSet
  by_cases h : k ∈ l <;> simp [h]

theorem addSet_of_not_mem (l : List String) (k : String) (h : k ∉ l) :
    addSet l k = k :: l := by
  simp [addSet, h]

theorem lookup_insert (d : Dict) (k : String) (v : Val) :
    Dict.lookup (Dict.insert d k v) k = some v := by
  induction d with
  | nil => simp [Dict.insert, Dict.lookup]
  | cons kv rest ih =>
    by_cases h : kv.1 = k
    · simp [Dict.insert, Dict.lookup, h]
    · simpa [Dict.insert, Dict.lookup, h] using ih

theorem lookup_filter (d : Dict) (c : List String) (k : String) :
    Dict.lookup (d.filter (fun kv => decide (kv.1 ∈ c))) k
      = if k ∈ c then Dict.lookup d k else none := by
  induction d with
  | nil => simp [Dict.lookup]
  | cons kv rest ih =>
    by_cases hmem : kv.1 ∈ c
    · by_cases hk : kv.1 = k
      · subst hk
        simp [List.filter, Dict.lookup, hmem]
      · simp only [List.filter, hmem, decide_True, Dict.lookup, hk, if_false]
        simpa [hk] using ih
    · by_cases hk : kv.1 = k
      · subst hk
        simp only [List.filter, hmem, decide_False, Dict.lookup]
        rw [ih, if_neg hmem]
        simp [hmem]
      · simp only [List.filter, hmem, decide_False, Dict.lookup]
        rw [ih]
        by_cases h2 : k ∈ c <;> simp [h2, Dict.lookup, hk]

/-! ### `in_progress` bookkeeping across successful resolutions -/

/-- When `get` or a producer body completes without raising, the
`_requested` set is restored exactly (the push is matched by the pop;
`append` and `set` never touch it).  Proved simultaneously for the two
interpreter functions by induction on the fuel. -/
theorem requested_stable : ∀ fuel : Nat,
    (∀ rules key e v e', getE fuel rules key e = (Except.ok v, e') →
      e'.requested = e.requested) ∧
    (∀ rules p e r e', runRule fuel rules p e = (Except.ok r, e') →
      e'.requested = e.requested) := by
  intro fuel
  induction fuel with
  | zero =>
    constructor
    · intro rules key e v e' h
      simp [getE] at h
    · intro rules p e r e' h
      simp [runRule] at h
  | succ n ih =>
    constructor
    · intro rules key e v e' h
      rw [getE] at h
      split at h
      · simp at h
      · rename_i hreq
        split at h
        · rename_i hv
          simp at h
          rw [h.2]
        · split at h
          · simp at h
          · split at h
            · simp at h
            · rename_i c nc e2 hrun
              split at h
              · simp at h
                obtain ⟨-, h2⟩ := h
                rw [← h2]
                unfold mergeResults
                rw [appendD_requested, appendD_requested]
                show (e2.requested.erase key) = e.requested
                rw [ih.2 _ _ _ _ _ hrun]
                show ((addSet e.requested key).erase key) = e.requested
                rw [addSet_of_not_mem _ _ hreq, List.erase_cons_head]
              · simp at h
    · intro rules p e r e' h
      cases p with
      | ret c nc =>
        rw [runRule] at h
        simp at h
        rw [h.2]
      | fail =>
        rw [runRule] at h
        simp at h
      | getThen k f =>
        rw [runRule] at h
        split at h
        · simp at h
        · rename_i v1 e1 hget
          rw [ih.2 _ _ _ _ _ h, ih.1 _ _ _ _ _ hget]

theorem mem_addSet_mono (l : List String) (k k' : String) (h : k ∈ l) :
    k ∈ addSet l k' := by
  unfold addSet
  by_cases h2 : k' ∈ l <;> simp [h2, h]

/-- A propagated no-rule `KeyError` always names a key that was *not*
on the `_requested` stack of the frame it crossed: the circular check
fires first for keys on the stack.  In particular the raising `get` was
asked for a key different from every in-progress one. -/
theorem noRule_not_on_stack : ∀ fuel : Nat,
    (∀ rules key e k e', getE fuel rules key e = (Except.error (Err.noRule k), e') →
      k ∉ e.requested) ∧
    (∀ rules p e k e', runRule fuel rules p e = (Except.error (Err.noRule k), e') →
      k ∉ e.requested) := by
  intro fuel
  induction fuel with
  | zero =>
    constructor
    · intro rules key e k e' h
      simp [getE] at h
    · intro rules p e k e' h
      simp [runRule] at h
  | succ n ih =>
    constructor
    · intro rules key e k e' h
      rw [getE] at h
      split at h
      · simp at h
      · rename_i hreq
        split at h
        · simp at h
        · split at h
          · simp at h
            exact h.1 ▸ hreq
          · split at h
            · rename_i err e2 hrun
              simp at h
              obtain ⟨h1, -⟩ := h
              intro hk
              exact ih.2 _ _ _ _ _ (h1 ▸ hrun) (mem_addSet_mono _ _ _ hk)
            · rename_i c nc e2 hrun
              split at h
              · simp at h
              · simp at h
    · intro rules p e k e' h
      cases p with
      | ret c nc =>
        rw [runRule] at h
        simp at h
      | fail =>
        rw [runRule] at h
        simp at h
      | getThen k1 f =>
        rw [runRule] at h
        split at h
        · rename_i err e1 hget
          simp at h
          exact ih.1 _ _ _ _ _ (h.1 ▸ hget)
        · rename_i v1 e1 hget
          have hreq1 : e1.requested = e.requested :=
            (requested_stable n).1 _ _ _ _ _ hget
          exact hreq1 ▸ ih.2 _ _ _ _ _ h

/-- Memoization hit: an attribute present in `_data` and not on the
`_requested` stack is returned unchanged. -/
theorem getE_hit (fuel : Nat) (rules : Rules) (key : String) (e : Entity)
    (v : Val) (h1 : key ∉ e.requested)
    (h2 : Dict.lookup e.data key = some v) :
    getE (fuel + 1) rules key e = (Except.ok v, e) := by
  rw [getE, if_neg h1, h2]

/-! ### The claims -/

/-- C1 (counterexample): a `get` call that finishes by raising a
producer-level failure does *not* restore `in_progress`: from a state
with empty `_requested`, `get("x")` against a failing producer raises
and leaves `_requested = {"x"}`, so the set is non-empty with no `get`
call on the stack.  (`Entity.get` removes the key after the producer
call with no `try/finally`, so the removal is skipped when the producer
raises.) -/
theorem get_raise_keeps_in_progress_cex :
    eNil.requested = [] ∧
    getE 2 failRules "x" eNil = (Except.error Err.producerFail, eFailAfter) ∧
    eFailAfter.requested = ["x"] ∧
    (getE 2 failRules "x" eNil).2.requested ≠ eNil.requested :=
  ⟨rfl, rfl, rfl, by decide⟩

/-- C1 (amended): when a `get` call returns a value, `in_progress` is
restored exactly to its pre-call contents (so it is empty at rest along
raise-free executions); but when a producer raises, the name stays in
`in_progress`, and a later `get` for that name is then treated as
circular — the second conjunct shows the retry after the failure of
`get_raise_keeps_in_progress_cex` failing with the circular error. -/
theorem get_ok_restores_in_progress :
    (∀ (fuel : Nat) (rules : Rules) (key : String) (e : Entity) (v : Val)
       (e' : Entity), getE fuel rules key e = (Except.ok v, e') →
         e'.requested = e.requested) ∧
    getE 2 failRules "x" eFailAfter =
      (Except.error (Err.circular "x" ["x"]), eFailAfter) :=
  ⟨fun fuel _ _ _ _ _ h => (requested_stable fuel).1 _ _ _ _ _ h, rfl⟩

/-- C1 (witness): the successful rule invocation resolving `a` under
`rulesAB` restores `_requested` (both ends empty, but `eAB` and `eNil`
are distinct states). -/
theorem get_ok_restores_in_progress_witness :
    eAB.requested = eNil.requested :=
  get_ok_restores_in_progress.1 2 rulesAB "a" eNil (Val.int 1) eAB rfl

/-- C2 (counterexample): fresh construction — no stored data and no
explicit cacheable set, exactly the forced-reload call
`Author(idx=author_id)` and the `load` of an unpersisted key — does not
succeed at all: `Entity.__init__` evaluates `set(data.keys())` with
`data = None` and raises `AttributeError`. -/
theorem fresh_entity_init_fails_cex :
    Entity.init "A" none none = none := rfl

/-- C2 (amended): fresh construction (`data=None`, `cacheable=None`)
raises instead of yielding an entity with empty attributes, and so does
`load` for a key with no persisted entry; an Entity loaded from the
persistence adapter for a persisted key has `attributes` equal to the
persisted cacheable map and `cacheable` initialized to exactly the
loaded key set. -/
theorem entity_init_and_load_amended :
    (∀ idx : String, Entity.init idx none none = none) ∧
    (∀ (idx : String) (d : Dict), Entity.init idx (some d) none =
      some ⟨idx, d, [], Dict.keys d, false, 0⟩) ∧
    (∀ (st : Store) (idx : String), st idx = none → loadE st idx = none) ∧
    (∀ (st : Store) (idx : String) (d : Dict), st idx = some d →
      loadE st idx = some ⟨idx, d, [], Dict.keys d, false, 0⟩) :=
  ⟨fun _ => rfl, fun _ _ => rfl,
   fun st idx h => by unfold loadE; rw [h]; rfl,
   fun st idx d h => by unfold loadE; rw [h]; rfl⟩

/-- C2 (witness): loading key `A` from the store persisting
`{"a": 1}` yields the entity with that attribute map and
`cacheable = {"a"}`. -/
theorem entity_init_and_load_witness :
    loadE stA "A" = some ⟨"A", [("a", Val.int 1)], [], ["a"], false, 0⟩ :=
  entity_init_and_load_amended.2.2.2 stA "A" [("a", Val.int 1)] rfl

/-- C3: for an attribute already present in `attributes` (requested
outside any resolution of itself, i.e. not on the `_requested` stack),
`get` returns the stored value with the state — including the
producer-invocation counter `calls` — completely unchanged, and `N`
repeated `get` calls leave the state fixed, so the producer is never
re-invoked (its count stays at whatever one resolution left, e.g. 1). -/
theorem get_memoized :
    ∀ (fuel : Nat) (rules : Rules) (key : String) (e : Entity) (v : Val),
    key ∉ e.requested → Dict.lookup e.data key = some v →
    getE (fuel + 1) rules key e = (Except.ok v, e) ∧
    ∀ n : Nat, Nat.iterate (fun s => (getE (fuel + 1) rules key s).2) n e = e := by
  intro fuel rules key e v h1 h2
  have hstep : getE (fuel + 1) rules key e = (Except.ok v, e) :=
    getE_hit fuel rules key e v h1 h2
  refine ⟨hstep, ?_⟩
  intro n
  induction n with
  | zero => rfl
  | succ m ihm =>
    rw [Function.iterate_succ_apply', ihm]
    show (getE (fuel + 1) rules key e).2 = e
    rw [hstep]

/-- C3 (witness): on `eMemo` (which holds `a = 7`) with an empty rule
table, `get("a")` returns 7 and leaves the entity untouched. -/
theorem get_memoized_witness :
    getE 1 noRules "a" eMemo = (Except.ok (Val.int 7), eMemo) :=
  (get_memoized 0 noRules "a" eMemo (Val.int 7) (by simp [eMemo]) rfl).1

/-- C4: whenever `save` writes, it hands the adapter precisely the
cacheable restriction of `attributes` — for every name, the persisted
map holds the current value if the name is cacheable and nothing
otherwise — and on the spec's example (one producer returning
`({"a":1,"b":2}, {"c":3})`, resolved from an empty entity) the write
is exactly `{"a": 1, "b": 2}`, never `"c"`. -/
theorem save_persists_exactly_cacheable :
    (∀ e : Entity, e.updated = true →
      Entity.save e =
        (some (e.data.filter (fun kv => decide (kv.1 ∈ e.cacheable))),
         { e with updated := false }) ∧
      ∀ k : String,
        Dict.lookup (e.data.filter (fun kv => decide (kv.1 ∈ e.cacheable))) k =
          if k ∈ e.cacheable then Dict.lookup e.data k else none) ∧
    getE 2 rulesAB "a" eNil = (Except.ok (Val.int 1), eAB) ∧
    Entity.save eAB =
      (some [("a", Val.int 1), ("b", Val.int 2)],
       { eAB with updated := false }) := by
  refine ⟨?_, rfl, rfl⟩
  intro e h
  constructor
  · unfold Entity.save
    rw [if_pos h]
  · intro k
    exact lookup_filter e.data e.cacheable k

/-- C4 (witness): the general part applied to the resolved example
entity `eAB`. -/
theorem save_persists_exactly_cacheable_witness :
    Entity.save eAB =
      (some (eAB.data.filter (fun kv => decide (kv.1 ∈ eAB.cacheable))),
       { eAB with updated := false }) :=
  (save_persists_exactly_cacheable.1 eAB rfl).1

/-- C5: `get(name)` fails with the circular-dependence error exactly
reporting `name` and the in-progress chain whenever `name` is already
in `in_progress`; in particular, with `x`'s producer calling `get("y")`
and `y`'s calling `get("x")`, `get("x")` on an empty entity raises the
circular error for `x` with the chain `{y, x}`. -/
theorem circular_dependency_detected :
    (∀ (fuel : Nat) (rules : Rules) (key : String) (e : Entity),
      key ∈ e.requested →
      getE (fuel + 1) rules key e =
        (Except.error (Err.circular key e.requested), e)) ∧
    getE 5 xyRules "x" eNil =
      (Except.error (Err.circular "x" ["y", "x"]),
       ⟨"E", [], ["y", "x"], [], false, 2⟩) := by
  refine ⟨?_, rfl⟩
  intro fuel rules key e h
  rw [getE, if_pos h]

/-- C5 (witness): the general part applied to the state in which `x`
is in progress. -/
theorem circular_dependency_detected_witness :
    getE 1 noRules "x" eFailAfter =
      (Except.error (Err.circular "x" ["x"]), eFailAfter) :=
  circular_dependency_detected.1 0 noRules "x" eFailAfter (by simp [eFailAfter])

/-- C6: for a top-level request (`name` not on the `_requested` stack),
`get(name)` fails with the no-rule error for `name` exactly when `name`
is absent from `attributes` and absent from the rule table; and
whenever `get` succeeds it returns the value stored under `name` (after
computing it if necessary). -/
theorem no_rule_error_characterized :
    ∀ (fuel : Nat) (rules : Rules) (key : String) (e : Entity),
    key ∉ e.requested →
    (((getE (fuel + 1) rules key e).1 = Except.error (Err.noRule key)) ↔
      (Dict.lookup e.data key = none ∧ rules key = none)) ∧
    (∀ (v : Val) (e' : Entity),
      getE (fuel + 1) rules key e = (Except.ok v, e') →
      Dict.lookup e'.data key = some v) := by
  intro fuel rules key e hreq
  constructor
  · constructor
    · intro herr
      rw [getE, if_neg hreq] at herr
      split at herr
      · simp at herr
      · rename_i hd
        split at herr
        · rename_i hr
          exact ⟨hd, hr⟩
        · rename_i p hp
          exfalso
          split at herr
          · rename_i err e2 hrun
            simp at herr
            exact noRule_not_on_stack fuel |>.2 _ _ _ _ _ (herr ▸ hrun)
              (mem_addSet e.requested key)
          · rename_i c nc e2 hrun
            split at herr <;> simp at herr
    · intro hcond
      rw [getE, if_neg hreq, hcond.1, hcond.2]
  · intro v e' hok
    rw [getE] at hok
    rw [if_neg hreq] at hok
    split at hok
    · rename_i w hw
      simp at hok
      rw [← hok.2, hw, hok.1]
    · split at hok
      · simp at hok
      · split at hok
        · simp at hok
        · rename_i c nc e2 hrun
          split at hok
          · rename_i w hw
            simp at hok
            rw [← hok.2, hw, hok.1]
          · simp at hok

/-- C6 (witness): `get("unknown")` on the empty entity with the empty
rule table fails with the no-rule error. -/
theorem no_rule_error_characterized_witness :
    (getE 1 noRules "unknown" eNil).1 = Except.error (Err.noRule "unknown") :=
  ((no_rule_error_characterized 0 noRules "unknown" eNil
    (by simp [eNil])).1).mpr ⟨rfl, rfl⟩

/-- C7 (counterexample): changing the value of a name that is in
`cacheable` does not necessarily make `dirty` true: on `eC7` (cacheable
`a = 1`, freshly saved, `dirty = false`), `set("a", 2)` — the default
non-cacheable `set`, exactly what a producer's non-cacheable output
merge performs — changes the stored value to 2 yet leaves `dirty`
false, and the following `save` is a no-op, so the change is never
persisted. -/
theorem dirty_not_set_on_cacheable_change_cex :
    ("a" ∈ eC7.cacheable ∧ eC7.updated = false ∧
      Dict.lookup eC7.data "a" = some (Val.int 1)) ∧
    Entity.set eC7 "a" (Val.int 2) false =
      ⟨"E", [("a", Val.int 2)], [], ["a"], false, 0⟩ ∧
    (Entity.set eC7 "a" (Val.int 2) false).updated ≠ true ∧
    Entity.save (Entity.set eC7 "a" (Val.int 2) false) =
      (none, Entity.set eC7 "a" (Val.int 2) false) :=
  ⟨⟨by simp [eC7], rfl, rfl⟩, rfl, by decide, rfl⟩

/-- C7 (amended): `dirty` is driven by the cacheable flag of the
operation, not by which names change: a `set` marked cacheable always
sets `dirty`; a `set` not marked cacheable never changes `dirty`, even
when the name is already in `cacheable` and its value changes; `save`
is a no-op when `dirty` is false, and when `dirty` is true it writes
and clears the flag. -/
theorem dirty_flag_amended :
    (∀ (e : Entity) (k : String) (v : Val),
      (Entity.set e k v true).updated = true) ∧
    (∀ (e : Entity) (k : String) (v : Val),
      (Entity.set e k v false).updated = e.updated) ∧
    (∀ e : Entity, e.updated = false → Entity.save e = (none, e)) ∧
    (∀ e : Entity, e.updated = true →
      (Entity.save e).2 = { e with updated := false } ∧
      ((Entity.save e).1).isSome = true) := by
  refine ⟨fun e k v => rfl, fun e k v => rfl, ?_, ?_⟩
  · intro e h
    simp [Entity.save, h]
  · intro e h
    simp [Entity.save, h]

/-- C7 (witness): `save` on the clean entity `eC7` is a no-op. -/
theorem dirty_flag_amended_witness :
    Entity.save eC7 = (none, eC7) :=
  dirty_flag_amended.2.2.1 eC7 rfl

/-- C8: round trip through persistence.  From any entity and any
store, `set("a", 1, cacheable=true)` followed by `save` writes a
mapping for the entity's key; constructing a fresh entity by `load`
from that store succeeds, and `get("a")` on it returns 1 with the
state unchanged — in particular its producer-invocation counter stays
0, whatever the rule table. -/
theorem save_load_round_trip :
    ∀ (st : Store) (e : Entity) (rules : Rules),
    ∃ d : Dict,
      (saveStore st (Entity.set e "a" (Val.int 1) true)).1 e.idx = some d ∧
      loadE (saveStore st (Entity.set e "a" (Val.int 1) true)).1 e.idx =
        some ⟨e.idx, d, [], Dict.keys d, false, 0⟩ ∧
      getE 1 rules "a" ⟨e.idx, d, [], Dict.keys d, false, 0⟩ =
        (Except.ok (Val.int 1), ⟨e.idx, d, [], Dict.keys d, false, 0⟩) := by
  intro st e rules
  have hidx : (Entity.set e "a" (Val.int 1) true).idx = e.idx :=
    set_idx e "a" (Val.int 1) true
  have hstore : (saveStore st (Entity.set e "a" (Val.int 1) true)).1 e.idx =
      some ((Entity.set e "a" (Val.int 1) true).data.filter
        (fun kv => decide
          (kv.1 ∈ (Entity.set e "a" (Val.int 1) true).cacheable))) := by
    show (if e.idx = (Entity.set e "a" (Val.int 1) true).idx
        then some ((Entity.set e "a" (Val.int 1) true).data.filter
          (fun kv => decide
            (kv.1 ∈ (Entity.set e "a" (Val.int 1) true).cacheable)))
        else st e.idx) = _
    rw [hidx]
    simp
  have hlook : Dict.lookup ((Entity.set e "a" (Val.int 1) true).data.filter
      (fun kv => decide
        (kv.1 ∈ (Entity.set e "a" (Val.int 1) true).cacheable))) "a" =
      some (Val.int 1) := by
    rw [lookup_filter, if_pos (show "a" ∈ (Entity.set e "a" (Val.int 1) true).cacheable from
      mem_addSet e.cacheable "a")]
    exact lookup_insert e.data "a" (Val.int 1)
  refine ⟨_, hstore, ?_, ?_⟩
  · unfold loadE
    rw [hstore]
    rfl
  · exact getE_hit 0 rules "a" _ _ (by simp) hlook

/-- C9: calling `save` twice in a row with nothing in between writes
at most once: whatever the starting state, the second call returns no
write and leaves the state untouched, because the first call cleared
`dirty` (or it was already clear). -/
theorem save_idempotent :
    ∀ e : Entity, Entity.save ((Entity.save e).2) = (none, (Entity.save e).2) := by
  intro e
  by_cases h : e.updated = true
  · simp [Entity.save, h]
  · rw [Bool.not_eq_true] at h
    simp [Entity.save, h]

/-- C10: on the `Author` entity loaded from a cache holding only
cacheable `citedby_year = {"2020": 3, "2021": 5}` and
`pubs_per_year = {"2020": 1, "2021": 2}`, resolving `years` invokes the
derived rule (`calls` goes 0 → 1: recomputed, not loaded — this holds
for *any* external fetch producer, which is never consulted), producing
the aligned sorted series `years = [2020, 2021]`,
`citations = [3, 5]`, `publications = [1, 2]`; the outputs are merged
non-cacheable (`cacheable` still holds exactly the two base names,
`dirty` stays false), so a `save` writes nothing. -/
theorem derived_series_recomputed_not_persisted :
    ∀ fetch : RuleProg,
    Entity.init "AUTH" (some authorData) none = some eAuthor ∧
    getE 5 (authorRules fetch) "years" eAuthor =
      (Except.ok (Val.arr [Val.int 2020, Val.int 2021]), eAuthorAfter) ∧
    Dict.lookup eAuthorAfter.data "years_str" =
      some (Val.arr [Val.str "2020", Val.str "2021"]) ∧
    Dict.lookup eAuthorAfter.data "citations" =
      some (Val.arr [Val.int 3, Val.int 5]) ∧
    Dict.lookup eAuthorAfter.data "publications" =
      some (Val.arr [Val.int 1, Val.int 2]) ∧
    eAuthorAfter.cacheable = ["citedby_year", "pubs_per_year"] ∧
    eAuthorAfter.calls = 1 ∧
    eAuthorAfter.updated = false ∧
    Entity.save eAuthorAfter = (none, eAuthorAfter) :=
  fun _ => ⟨rfl, rfl, rfl, rfl, rfl, rfl, rfl, rfl, rfl⟩

end HG
